import Mathlib

/-!
# Verification of the Unreal MCP bridge client (`unreal_mcp_client.py`)

A shallow embedding of the command/response transaction protocol of the
repository's `send_command` function and of the helpers it relies on
(`connect_to_unreal`, the inline response-decoding block, and the
`json.dumps` / `json.loads` calls), together with theorems settling the
frozen claims about it.

Conventions of the embedding:
* raw socket bytes are `List Nat` (each entry one byte, `< 256`);
* Python `str` values are `List Char` while being manipulated, and decoded
  JSON string *contents* are `List Nat` code points (Python strings may hold
  lone surrogates, which Lean `Char` cannot);
* the socket's behaviour during one call is an explicit finite trace
  (connect results, per-attempt send faults and `recv` results); running the
  model consumes the trace, and an `Outcome.exhausted` result means the
  finite trace ended while the code was still running — so a family of
  traces that is `exhausted` for every length witnesses non-termination.
-/

namespace UnrealMCP

/-- Code points of a Lean string literal (used for ASCII wire text and for
Python string constants appearing in the source). -/
def codesOf (s : String) : List Nat :=
  s.toList.map Char.toNat

/-- Code points of a character list. -/
def codes (cs : List Char) : List Nat :=
  cs.map Char.toNat

/-! ## UTF-8 decoding with replacement — `chunk.decode('utf-8', 'replace')` -/

/-- The replacement character U+FFFD substituted for undecodable byte
sequences. -/
def replChar : Char := Char.ofNat 0xFFFD

/-- Is `b` a UTF-8 continuation byte `0x80..0xBF`? -/
def isCont (b : Nat) : Bool := 0x80 ≤ b && b ≤ 0xBF

/-- Valid range for the first continuation byte of a 3-byte sequence led by
`b` (RFC 3629: `E0` needs `A0..BF`, `ED` needs `80..9F`, the rest `80..BF`). -/
def isCont3 (b b2 : Nat) : Bool :=
  if b = 0xE0 then 0xA0 ≤ b2 && b2 ≤ 0xBF
  else if b = 0xED then 0x80 ≤ b2 && b2 ≤ 0x9F
  else isCont b2

/-- Valid range for the first continuation byte of a 4-byte sequence led by
`b` (`F0` needs `90..BF`, `F4` needs `80..8F`, the rest `80..BF`). -/
def isCont4 (b b2 : Nat) : Bool :=
  if b = 0xF0 then 0x90 ≤ b2 && b2 ≤ 0xBF
  else if b = 0xF4 then 0x80 ≤ b2 && b2 ≤ 0x8F
  else isCont b2

/-- Decode one character starting at byte `b` with remaining bytes `rest`;
returns the character (U+FFFD for an invalid or truncated sequence, consuming
its maximal subpart) and the bytes not consumed. Always consumes at least the
byte `b`. -/
def utf8Step (b : Nat) (rest : List Nat) : Char × List Nat :=
  if b < 0x80 then (Char.ofNat b, rest)
  else if 0xC2 ≤ b && b ≤ 0xDF then
    match rest with
    | b2 :: r2 =>
      if isCont b2 then (Char.ofNat ((b - 0xC0) * 0x40 + (b2 - 0x80)), r2)
      else (replChar, rest)
    | [] => (replChar, [])
  else if 0xE0 ≤ b && b ≤ 0xEF then
    match rest with
    | b2 :: r2 =>
      if isCont3 b b2 then
        match r2 with
        | b3 :: r3 =>
          if isCont b3 then
            (Char.ofNat ((b - 0xE0) * 0x1000 + (b2 - 0x80) * 0x40 + (b3 - 0x80)), r3)
          else (replChar, r2)
        | [] => (replChar, [])
      else (replChar, rest)
    | [] => (replChar, [])
  else if 0xF0 ≤ b && b ≤ 0xF4 then
    match rest with
    | b2 :: r2 =>
      if isCont4 b b2 then
        match r2 with
        | b3 :: r3 =>
          if isCont b3 then
            match r3 with
            | b4 :: r4 =>
              if isCont b4 then
                (Char.ofNat ((b - 0xF0) * 0x40000 + (b2 - 0x80) * 0x1000 +
                  (b3 - 0x80) * 0x40 + (b4 - 0x80)), r4)
              else (replChar, r3)
            | [] => (replChar, [])
          else (replChar, r2)
        | [] => (replChar, [])
      else (replChar, rest)
    | [] => (replChar, [])
  else (replChar, rest)

/-- Fuel-driven decoding loop; each step consumes at least one byte, so fuel
equal to the byte count suffices. -/
def utf8Go : Nat → List Nat → List Char
  | 0, _ => []
  | _ + 1, [] => []
  | fuel + 1, b :: rest =>
    let s := utf8Step b rest
    s.1 :: utf8Go fuel s.2

/-- `bytes.decode('utf-8', 'replace')`: never fails; invalid sequences become
U+FFFD. -/
def utf8DecodeReplace (bs : List Nat) : List Char :=
  utf8Go bs.length bs

/-! ## The normalization steps — `strip('\'"\n\r')` and `replace("\\'", "")` -/

/-- Membership in the strip set of `decoded.strip('\'"\n\r')`. -/
def stripSet (c : Char) : Bool :=
  c = '\'' || c = '"' || c = '\n' || c = '\r'

/-- Python `str.strip('\'"\n\r')`: drop the characters of the set from both
ends. -/
def pyStrip (cs : List Char) : List Char :=
  ((cs.dropWhile stripSet).reverse.dropWhile stripSet).reverse

/-- Python `str.replace("\\'", "")`: delete every occurrence of the two-character
sequence backslash–single-quote, scanning left to right without rescanning. -/
def removeEscQuote : List Char → List Char
  | [] => []
  | [c] => [c]
  | a :: b :: rest =>
    if a = '\\' && b = '\'' then removeEscQuote rest
    else a :: removeEscQuote (b :: rest)

/-- Does the two-character sequence backslash–single-quote occur anywhere? -/
def hasEscPair : List Char → Bool
  | a :: b :: rest => (a = '\\' && b = '\'') || hasEscPair (b :: rest)
  | _ => false

/-! ## JSON values — the results of Python `json.loads` -/

/-- A decoded JSON value. `num` covers integer literals (Python `int`);
`fnum` keeps the source lexeme of any non-integral numeric literal
(`1.5`, `1e3`, `NaN`, `Infinity`, `-Infinity`) since floating point is not
modelled; `str` and object keys are code-point lists because Python strings
may hold lone surrogates. Objects keep their key order. -/
inductive Json where
  | null : Json
  | bool (b : Bool) : Json
  | num (n : Int) : Json
  | fnum (lexeme : List Char) : Json
  | str (cps : List Nat) : Json
  | arr (elems : List Json) : Json
  | obj (fields : List (List Nat × Json)) : Json

/-- Shorthand for a JSON string value with ASCII content. -/
def jstr (s : String) : Json := Json.str (codesOf s)

/-! ## `json.loads` — Python's JSON parser (default options, `strict=True`)

Error payloads are short tags; the source only ever surfaces `str(je)` when
the decoded text is empty, which cannot happen for a non-empty chunk, so the
exact Python error strings never matter. -/

/-- JSON insignificant whitespace (the scanner's `[ \t\n\r]*`). -/
def jWsChar (c : Char) : Bool :=
  c = ' ' || c = '\t' || c = '\n' || c = '\r'

/-- Skip insignificant whitespace. -/
def skipWs (cs : List Char) : List Char :=
  cs.dropWhile jWsChar

/-- ASCII decimal digit test. -/
def isDigitCh (c : Char) : Bool := '0' ≤ c && c ≤ '9'

/-- Hex digit value. -/
def hexVal (c : Char) : Option Nat :=
  if '0' ≤ c && c ≤ '9' then some (c.toNat - 48)
  else if 'a' ≤ c && c ≤ 'f' then some (c.toNat - 87)
  else if 'A' ≤ c && c ≤ 'F' then some (c.toNat - 55)
  else none

/-- Four hex digits, as in a `\uXXXX` escape. -/
def parseHex4 : List Char → Option (Nat × List Char)
  | a :: b :: c :: d :: rest =>
    match hexVal a, hexVal b, hexVal c, hexVal d with
    | some x, some y, some z, some w => some (x * 4096 + y * 256 + z * 16 + w, rest)
    | _, _, _, _ => none
  | _ => none

/-- The single-character string escapes accepted by the JSON scanner. -/
def escCharMap (c : Char) : Option Char :=
  if c = '"' then some '"'
  else if c = '\\' then some '\\'
  else if c = '/' then some '/'
  else if c = 'b' then some (Char.ofNat 8)
  else if c = 'f' then some (Char.ofNat 12)
  else if c = 'n' then some '\n'
  else if c = 'r' then some '\r'
  else if c = 't' then some '\t'
  else none

/-- Is `u` a high surrogate `D800..DBFF`? -/
def isHighSurr (u : Nat) : Bool := 0xD800 ≤ u && u ≤ 0xDBFF

/-- Is `u` a low surrogate `DC00..DFFF`? -/
def isLowSurr (u : Nat) : Bool := 0xDC00 ≤ u && u ≤ 0xDFFF

/-- String body scanner (`py_scanstring` behaviour): the leading `"` has been
consumed; reads code points until the closing quote. Raw control characters
below `0x20` are rejected (`strict=True`); `\uXXXX` escapes may form
surrogate pairs, and lone surrogates are kept as-is. Each step consumes at
least one character, so fuel equal to the character count suffices. -/
def parseStringBody : Nat → List Char → Except (List Char) (List Nat × List Char)
  | 0, _ => .error ('F' :: [])
  | _ + 1, [] => .error ('U' :: [])
  | fuel + 1, c :: rest =>
    if c = '"' then .ok ([], rest)
    else if c = '\\' then
      match rest with
      | [] => .error ('U' :: [])
      | e :: rest2 =>
        if e = 'u' then
          match parseHex4 rest2 with
          | none => .error ('X' :: [])
          | some (u, rest3) =>
            if isHighSurr u then
              match rest3 with
              | '\\' :: 'u' :: rest4 =>
                match parseHex4 rest4 with
                | some (u2, rest5) =>
                  if isLowSurr u2 then
                    match parseStringBody fuel rest5 with
                    | .ok (cps, r) =>
                      .ok ((0x10000 + (u - 0xD800) * 0x400 + (u2 - 0xDC00)) :: cps, r)
                    | .error m => .error m
                  else
                    match parseStringBody fuel rest3 with
                    | .ok (cps, r) => .ok (u :: cps, r)
                    | .error m => .error m
                | none =>
                  match parseStringBody fuel rest3 with
                  | .ok (cps, r) => .ok (u :: cps, r)
                  | .error m => .error m
              | _ =>
                match parseStringBody fuel rest3 with
                | .ok (cps, r) => .ok (u :: cps, r)
                | .error m => .error m
            else
              match parseStringBody fuel rest3 with
              | .ok (cps, r) => .ok (u :: cps, r)
              | .error m => .error m
        else
          match escCharMap e with
          | some ec =>
            match parseStringBody fuel rest2 with
            | .ok (cps, r) => .ok (ec.toNat :: cps, r)
            | .error m => .error m
          | none => .error ('E' :: [])
    else if c.toNat < 0x20 then .error ('C' :: [])
    else
      match parseStringBody fuel rest with
      | .ok (cps, r) => .ok (c.toNat :: cps, r)
      | .error m => .error m

/-- Digits to their decimal value. -/
def digitsToNat (ds : List Char) : Nat :=
  ds.foldl (fun a c => a * 10 + (c.toNat - 48)) 0

/-- Number scanner, mirroring the scanner's regular expression
`-?(0|[1-9][0-9]*)(\.[0-9]+)?([eE][+-]?[0-9]+)?`: a fraction or exponent is
consumed only when complete; an integral lexeme yields `Json.num`, any other
match keeps its lexeme as `Json.fnum`. -/
def parseNumber (cs : List Char) : Except (List Char) (Json × List Char) :=
  let (neg, cs1) : Bool × List Char :=
    match cs with
    | '-' :: t => (true, t)
    | _ => (false, cs)
  match cs1 with
  | c :: t =>
    if isDigitCh c then
      let (intPart, rest1) : List Char × List Char :=
        if c = '0' then ([c], t) else (cs1.takeWhile isDigitCh, cs1.dropWhile isDigitCh)
      let (fracPart, rest2) : List Char × List Char :=
        match rest1 with
        | '.' :: t2 =>
          let ds := t2.takeWhile isDigitCh
          if ds = [] then ([], rest1) else ('.' :: ds, t2.dropWhile isDigitCh)
        | _ => ([], rest1)
      let (expPart, rest3) : List Char × List Char :=
        match rest2 with
        | e :: t2 =>
          if e = 'e' || e = 'E' then
            let (sgn, t3) : List Char × List Char :=
              match t2 with
              | s :: t3 => if s = '+' || s = '-' then ([s], t3) else ([], t2)
              | [] => ([], t2)
            let ds := t3.takeWhile isDigitCh
            if ds = [] then ([], rest2) else (e :: (sgn ++ ds), t3.dropWhile isDigitCh)
          else ([], rest2)
        | [] => ([], rest2)
      if fracPart = [] && expPart = [] then
        .ok (.num (if neg then -(digitsToNat intPart : Int) else (digitsToNat intPart : Int)), rest3)
      else
        .ok (.fnum ((if neg then ['-'] else []) ++ intPart ++ fracPart ++ expPart), rest3)
    else .error ('V' :: [])
  | [] => .error ('V' :: [])

mutual

/-- Value scanner (`scan_once`). `cs` starts at the value's first character. -/
def parseValue : Nat → List Char → Except (List Char) (Json × List Char)
  | 0, _ => .error ('F' :: [])
  | fuel + 1, cs =>
    match cs with
    | [] => .error ('V' :: [])
    | c :: rest =>
      if c = '{' then parseObjBody fuel (skipWs rest)
      else if c = '[' then parseArrBody fuel (skipWs rest)
      else if c = '"' then
        match parseStringBody (rest.length + 1) rest with
        | .ok (cps, r) => .ok (.str cps, r)
        | .error m => .error m
      else if c = 't' then
        match rest with
        | 'r' :: 'u' :: 'e' :: r => .ok (.bool true, r)
        | _ => .error ('V' :: [])
      else if c = 'f' then
        match rest with
        | 'a' :: 'l' :: 's' :: 'e' :: r => .ok (.bool false, r)
        | _ => .error ('V' :: [])
      else if c = 'n' then
        match rest with
        | 'u' :: 'l' :: 'l' :: r => .ok (.null, r)
        | _ => .error ('V' :: [])
      else if c = 'N' then
        match rest with
        | 'a' :: 'N' :: r => .ok (.fnum ('N' :: 'a' :: 'N' :: []), r)
        | _ => .error ('V' :: [])
      else if c = 'I' then
        match rest with
        | 'n' :: 'f' :: 'i' :: 'n' :: 'i' :: 't' :: 'y' :: r =>
          .ok (.fnum "Infinity".toList, r)
        | _ => .error ('V' :: [])
      else if c = '-' then
        match rest with
        | 'I' :: 'n' :: 'f' :: 'i' :: 'n' :: 'i' :: 't' :: 'y' :: r =>
          .ok (.fnum "-Infinity".toList, r)
        | _ => parseNumber cs
      else if isDigitCh c then parseNumber cs
      else .error ('V' :: [])

/-- Object scanner after the `{` with leading whitespace skipped. -/
def parseObjBody : Nat → List Char → Except (List Char) (Json × List Char)
  | 0, _ => .error ('F' :: [])
  | fuel + 1, cs =>
    match cs with
    | '}' :: r => .ok (.obj [], r)
    | _ => parseMember fuel [] cs

/-- One `"key": value` member, then either `, member…` or `}`. -/
def parseMember : Nat → List (List Nat × Json) → List Char →
    Except (List Char) (Json × List Char)
  | 0, _, _ => .error ('F' :: [])
  | fuel + 1, acc, cs =>
    match cs with
    | '"' :: rest =>
      match parseStringBody (rest.length + 1) rest with
      | .error m => .error m
      | .ok (key, r1) =>
        match skipWs r1 with
        | ':' :: r2 =>
          match parseValue fuel (skipWs r2) with
          | .error m => .error m
          | .ok (v, r3) =>
            match skipWs r3 with
            | ',' :: r4 => parseMember fuel (acc ++ [(key, v)]) (skipWs r4)
            | '}' :: r4 => .ok (.obj (acc ++ [(key, v)]), r4)
            | _ => .error ('D' :: [])
        | _ => .error (':' :: [])
    | _ => .error ('P' :: [])

/-- Array scanner after the `[` with leading whitespace skipped. -/
def parseArrBody : Nat → List Char → Except (List Char) (Json × List Char)
  | 0, _ => .error ('F' :: [])
  | fuel + 1, cs =>
    match cs with
    | ']' :: r => .ok (.arr [], r)
    | _ => parseElem fuel [] cs

/-- One array element, then either `, element…` or `]`. -/
def parseElem : Nat → List Json → List Char → Except (List Char) (Json × List Char)
  | 0, _, _ => .error ('F' :: [])
  | fuel + 1, acc, cs =>
    match parseValue fuel cs with
    | .error m => .error m
    | .ok (v, r1) =>
      match skipWs r1 with
      | ',' :: r2 => parseElem fuel (acc ++ [v]) (skipWs r2)
      | ']' :: r2 => .ok (.arr (acc ++ [v]), r2)
      | _ => .error ('D' :: [])

end

/-- `json.loads`: skip leading whitespace, scan one value, then require only
trailing whitespace. The fuel bound is generous; every recursive descent step
follows consumed input. -/
def jsonLoads (cs : List Char) : Except (List Char) Json :=
  match parseValue (3 * cs.length + 16) (skipWs cs) with
  | .error m => .error m
  | .ok (v, rest) => if (skipWs rest).isEmpty then .ok v else .error ('T' :: [])

/-! ## `json.dumps` — Python's JSON serializer (default options) -/

/-- Lowercase hex digit. -/
def hexDig (n : Nat) : Char :=
  if n < 10 then Char.ofNat (48 + n) else Char.ofNat (87 + n)

/-- Four lowercase hex digits, as emitted in `\uXXXX` escapes. -/
def hex4 (n : Nat) : List Char :=
  [hexDig (n / 4096 % 16), hexDig (n / 256 % 16), hexDig (n / 16 % 16), hexDig (n % 16)]

/-- Escape one code point per the `ensure_ascii=True` encoder: `"` and `\`
and the named control escapes get a backslash form, all other characters
outside `0x20..0x7E` become `\uXXXX` (astral code points as a surrogate
pair). -/
def escCp (n : Nat) : List Char :=
  if n = 0x22 then ['\\', '"']
  else if n = 0x5C then ['\\', '\\']
  else if n = 0x08 then ['\\', 'b']
  else if n = 0x0C then ['\\', 'f']
  else if n = 0x0A then ['\\', 'n']
  else if n = 0x0D then ['\\', 'r']
  else if n = 0x09 then ['\\', 't']
  else if n < 0x20 then '\\' :: 'u' :: hex4 n
  else if n ≤ 0x7E then [Char.ofNat n]
  else if n ≤ 0xFFFF then '\\' :: 'u' :: hex4 n
  else
    ('\\' :: 'u' :: hex4 (0xD800 + (n - 0x10000) / 0x400)) ++
      ('\\' :: 'u' :: hex4 (0xDC00 + (n - 0x10000) % 0x400))

/-- Serialize a string value from its code points. -/
def dumpStringCps (cps : List Nat) : List Char :=
  '"' :: (cps.map escCp).flatten ++ ['"']

/-- Join serialized pieces with a separator (the encoder's item separator). -/
def joinSep (sep : List Char) : List (List Char) → List Char
  | [] => []
  | [x] => x
  | x :: y :: rest => x ++ sep ++ joinSep sep (y :: rest)

/-- Serialize a JSON value with the default separators `", "` and `": "`. -/
def dumpJson : Json → List Char
  | .null => "null".toList
  | .bool true => "true".toList
  | .bool false => "false".toList
  | .num n => (toString n).toList
  | .fnum lexeme => lexeme
  | .str cps => dumpStringCps cps
  | .arr es =>
    '[' :: joinSep ", ".toList (es.attach.map (fun e => dumpJson e.1)) ++ [']']
  | .obj kvs =>
    '{' :: joinSep ", ".toList
      (kvs.attach.map (fun kv => dumpStringCps kv.1.1 ++ ": ".toList ++ dumpJson kv.1.2)) ++ ['}']
decreasing_by
  all_goals simp_wf
  · have := List.sizeOf_lt_of_mem e.2
    omega
  · have h1 := List.sizeOf_lt_of_mem kv.2
    obtain ⟨⟨a, b⟩, hm⟩ := kv
    simp at h1 ⊢
    omega

/-- UTF-8 encoding of one scalar value. -/
def utf8EncodeChar (n : Nat) : List Nat :=
  if n < 0x80 then [n]
  else if n < 0x800 then [0xC0 + n / 0x40, 0x80 + n % 0x40]
  else if n < 0x10000 then [0xE0 + n / 0x1000, 0x80 + n / 0x40 % 0x40, 0x80 + n % 0x40]
  else [0xF0 + n / 0x40000, 0x80 + n / 0x1000 % 0x40, 0x80 + n / 0x40 % 0x40, 0x80 + n % 0x40]

/-- `text.encode('utf-8')`. -/
def utf8Encode (cs : List Char) : List Nat :=
  (cs.map (fun c => utf8EncodeChar c.toNat)).flatten

/-! ## The request message — `json.dumps(message).encode('utf-8')`

`send_command` builds `message = {"command": command, "params": params}` with
`params` defaulted to `{}` when `None`, serializes it and sends the bytes in
one `sendall`. -/

/-- The `message` dictionary, with the `params is None` default applied. -/
def messageJson (command : String) (params : Option (List (String × Json))) : Json :=
  .obj [(codesOf "command", .str (codesOf command)),
        (codesOf "params", .obj ((params.getD []).map fun kv => (codesOf kv.1, kv.2)))]

/-- The bytes handed to `socket_client.sendall`. -/
def wireBytes (command : String) (params : Option (List (String × Json))) : List Nat :=
  utf8Encode (dumpJson (messageJson command params))

/-! ## The inline response decoder of `send_command` (lines 70–89) -/

/-- `decoded = chunk.decode('utf-8', 'replace')`. -/
def decodedOf (bs : List Nat) : List Char := utf8DecodeReplace bs

/-- `stripped = decoded.strip('\'"\n\r')`. -/
def strippedOf (bs : List Nat) : List Char := pyStrip (decodedOf bs)

/-- `replaced = stripped.replace("\\'", '')`. -/
def replacedOf (bs : List Nat) : List Char := removeEscQuote (strippedOf bs)

/-- The synthesized parse-failure Reply
`{"status": "error", "message": f"Json error: {msg}"}`. -/
def jsonErrReply (msg : List Char) : Json :=
  .obj [(codesOf "status", jstr "error"),
        (codesOf "message", .str (codes ("Json error: ".toList ++ msg)))]

/-- The Reply produced from one non-empty received chunk: parse the
normalized text; on success return the parsed value as-is, on failure pick
the best non-empty diagnostic among `replaced`, `stripped`, `decoded`, else
the parser's own message, and wrap it in an `error` Reply. -/
def decodeChunk (bs : List Nat) : Json :=
  match jsonLoads (replacedOf bs) with
  | .ok v => v
  | .error je =>
    jsonErrReply
      (if replacedOf bs ≠ [] then replacedOf bs
       else if strippedOf bs ≠ [] then strippedOf bs
       else if decodedOf bs ≠ [] then decodedOf bs
       else je)

/-- Does the pipeline fail to parse the chunk? -/
def isParseError (bs : List Nat) : Bool :=
  match jsonLoads (replacedOf bs) with
  | .ok _ => false
  | .error _ => true

/-! ## Reply inspection helpers -/

/-- First binding of `key` in an object's field list (`dict` lookup; the
claims' concrete objects have distinct keys, where first = last binding). -/
def lookupKey (key : List Nat) : List (List Nat × Json) → Option Json
  | [] => none
  | kv :: rest => if kv.1 = key then some kv.2 else lookupKey key rest

/-- The `status` field of a Reply, when the Reply is a mapping whose
`status` is a string. -/
def statusOf (j : Json) : Option (List Nat) :=
  match j with
  | .obj kvs =>
    match lookupKey (codesOf "status") kvs with
    | some (.str s) => some s
    | _ => none
  | _ => none

/-- The `result` field of a Reply when the Reply is a mapping. -/
def resultOf (j : Json) : Option Json :=
  match j with
  | .obj kvs => lookupKey (codesOf "result") kvs
  | _ => none

/-- The `message` field of a Reply when it is a string, as code points. -/
def messageOf (j : Json) : Option (List Nat) :=
  match j with
  | .obj kvs =>
    match lookupKey (codesOf "message") kvs with
    | some (.str s) => some s
    | _ => none
  | _ => none

/-- The locally synthesized Reply
`{"status": "error", "message": "Not connected to Unreal Engine"}`. -/
def notConnectedReply : Json :=
  .obj [(codesOf "status", jstr "error"),
        (codesOf "message", jstr "Not connected to Unreal Engine")]

/-- The locally synthesized Reply
`{"status": "error", "message": f"Communication error: {e}"}`, with `e` the
text of the socket exception. -/
def commErrorReply (e : String) : Json :=
  .obj [(codesOf "status", jstr "error"),
        (codesOf "message", .str (codesOf ("Communication error: " ++ e)))]

/-! ## The transaction model — `send_command(command, params=None)`

The socket's behaviour is an explicit finite trace:
* `connects` lists the results of successive `connect_to_unreal()` calls
  (`connect_to_unreal` replaces `socket_client` with a fresh handle on
  success and sets it to `None` on failure);
* each `AttemptBhv` describes one pass through the `try:` block — whether
  `sendall` raises (with the exception's text) and, if not, the results of
  the successive `recv(16384)` calls of the `while True:` loop.

Socket handles are numbered so that replacing the connection is observable;
`nextSock` is the number the next successful connect will hand out. The model
counts connect attempts, `sendall` calls and `recv` calls, and records the
bytes of every completed `sendall`. -/

/-- The result of one `socket_client.recv(16384)` call: either the socket
raises (exception text `e`), or it returns a chunk of at most 16384 bytes —
possibly the empty chunk `b''` of a closed peer. -/
inductive RecvEvent where
  | fault (e : String) : RecvEvent
  | chunk (bs : List Nat) : RecvEvent

/-- The socket behaviour of one pass through the `try:` block. -/
structure AttemptBhv where
  /-- `some e` when `sendall` raises with exception text `e`. -/
  sendFault : Option String
  /-- Results of the successive `recv` calls of this attempt. -/
  recvs : List RecvEvent

/-- Operation counters of one `send_command` call. -/
structure Stats where
  connects : Nat
  sends : Nat
  recvCalls : Nat
deriving DecidableEq, Repr

/-- The observable result of a `send_command` call. `reply` carries the
returned Reply, the final `socket_client` slot, the bytes of every completed
`sendall`, and the counters. `exhausted` means the finite behaviour trace
ended while the code was still running — a call that is `exhausted` on every
finite extension of a trace family never returns. -/
inductive Outcome where
  | reply (r : Json) (conn : Option Nat) (sent : List (List Nat)) (st : Stats)
  | exhausted (sent : List (List Nat)) (st : Stats)

/-- The `while True:` receive loop of lines 62–91, run against the attempt's
`recv` results: an empty chunk loops again (`break` is only reached inside
`if chunk:`), a non-empty chunk is decoded and the loop breaks, an exception
escapes to the `except` handler. Returns the number of `recv` calls consumed
and what ended the loop (`none` component pending = trace ran out while the
loop was still polling). -/
inductive RecvOutcome where
  | fault (e : String) : RecvOutcome
  | got (bs : List Nat) : RecvOutcome
  | pending : RecvOutcome

/-- Consume recv results until the loop would break or raise. -/
def recvLoop : List RecvEvent → Nat × RecvOutcome
  | [] => (0, .pending)
  | .fault e :: _ => (1, .fault e)
  | .chunk bs :: es =>
    if bs.isEmpty then
      let r := recvLoop es
      (r.1 + 1, r.2)
    else (1, .got bs)

/-- Lines 44–46: ensure a connection is held, mirroring
`if socket_client is None: if not connect_to_unreal(): return …`. -/
inductive ConnRes where
  /-- The `connects` trace ran out. -/
  | noTrace (st : Stats)
  /-- `connect_to_unreal()` failed: `socket_client = None`, return the
  not-connected Reply. -/
  | notConn (st : Stats)
  /-- A connection `s` is held; `ns` is the next fresh handle number. -/
  | ready (s : Nat) (ns : Nat) (connects : List Bool) (st : Stats)

/-- Ensure-connection step. -/
def connPhase : Option Nat → Nat → List Bool → Stats → ConnRes
  | some s, ns, connects, st => .ready s ns connects st
  | none, _, [], st => .noTrace st
  | none, ns, ok :: crest, st =>
    if ok then .ready ns (ns + 1) crest { st with connects := st.connects + 1 }
    else .notConn { st with connects := st.connects + 1 }

/-- One `send_command(command, params)` call against the given socket
behaviour. The recursion on `attempts` mirrors the retry-by-recursion of
lines 96–101: a communication fault during send or receive runs
`connect_to_unreal()`; on success the whole call recurses (consuming the next
attempt behaviour), on failure the communication-error Reply is returned with
`socket_client = None`. -/
def sendCommandGo (cmd : String) (params : Option (List (String × Json))) :
    Option Nat → Nat → List Bool → List AttemptBhv → List (List Nat) → Stats → Outcome
  | conn, ns, connects, attempts, sent, st =>
    match connPhase conn ns connects st with
    | .noTrace st1 => .exhausted sent st1
    | .notConn st1 => .reply notConnectedReply none sent st1
    | .ready s ns1 connects1 st1 =>
      match attempts with
      | [] => .exhausted sent st1
      | a :: restAtt =>
        let msg := wireBytes cmd params
        let st2 := { st1 with sends := st1.sends + 1 }
        match a.sendFault with
        | some e =>
          match connects1 with
          | [] => .exhausted sent st2
          | ok :: crest =>
            let st3 := { st2 with connects := st2.connects + 1 }
            if ok then
              sendCommandGo cmd params (some ns1) (ns1 + 1) crest restAtt sent st3
            else .reply (commErrorReply e) none sent st3
        | none =>
          let sent2 := sent ++ [msg]
          let r := recvLoop a.recvs
          let st3 := { st2 with recvCalls := st2.recvCalls + r.1 }
          match r.2 with
          | .pending => .exhausted sent2 st3
          | .got bs => .reply (decodeChunk bs) (some s) sent2 st3
          | .fault e =>
            match connects1 with
            | [] => .exhausted sent2 st3
            | ok :: crest =>
              let st4 := { st3 with connects := st3.connects + 1 }
              if ok then
                sendCommandGo cmd params (some ns1) (ns1 + 1) crest restAtt sent2 st4
              else .reply (commErrorReply e) none sent2 st4

/-- `send_command` from a given initial `socket_client` slot, with fresh
handle numbering and zeroed counters. -/
def send_command (cmd : String) (params : Option (List (String × Json)))
    (conn : Option Nat) (connects : List Bool) (attempts : List AttemptBhv) : Outcome :=
  sendCommandGo cmd params conn (match conn with | some s => s + 1 | none => 0)
    connects attempts [] ⟨0, 0, 0⟩

/-! ## Support lemmas -/

/-- A trace of `n` empty chunks leaves the receive loop still polling after
`n` `recv` calls: the `break` of line 91 sits inside `if chunk:`, so an empty
chunk never ends the loop. -/
theorem recvLoop_replicate_empty (n : Nat) :
    recvLoop (List.replicate n (.chunk [])) = (n, .pending) := by
  induction n with
  | zero => rfl
  | succ k ih => simp [List.replicate_succ, recvLoop, ih]

/-- Dropping a strip-set prefix: a block of strippable characters in front is
dropped wholesale. -/
theorem dropWhile_append_all (w t : List Char) (hw : w.all stripSet) :
    (w ++ t).dropWhile stripSet = t.dropWhile stripSet := by
  induction w with
  | nil => rfl
  | cons a w ih =>
    simp only [List.all_cons, Bool.and_eq_true] at hw
    simp [List.dropWhile, hw.1, ih hw.2]

/-- `dropWhile` stops at a non-strippable head. -/
theorem dropWhile_cons_not (c : Char) (t : List Char) (hc : stripSet c = false) :
    (c :: t).dropWhile stripSet = c :: t := by
  simp [List.dropWhile, hc]

/-- `strip` removes exactly a redundant strippable wrapper: if `s` is
non-empty, starts and ends with non-strippable characters, then
`pyStrip (w1 ++ s ++ w2) = s` for any strippable `w1`, `w2`. -/
theorem pyStrip_wrapped (w1 s w2 : List Char) (hw1 : w1.all stripSet)
    (hw2 : w2.all stripSet) (hs : s ≠ [])
    (hhead : ∀ c, s.head? = some c → stripSet c = false)
    (hlast : ∀ c, s.getLast? = some c → stripSet c = false) :
    pyStrip (w1 ++ s ++ w2) = s := by
  obtain ⟨c, s', rfl⟩ : ∃ c s', s = c :: s' := by
    cases s with
    | nil => exact absurd rfl hs
    | cons c s' => exact ⟨c, s', rfl⟩
  have hc : stripSet c = false := hhead c rfl
  unfold pyStrip
  rw [List.append_assoc, dropWhile_append_all _ _ hw1, List.cons_append,
    dropWhile_cons_not _ _ hc]
  have hrev : (c :: (s' ++ w2)).reverse = w2.reverse ++ (c :: s').reverse := by
    simp
  rw [hrev, dropWhile_append_all _ _ (by simpa using hw2)]
  obtain ⟨d, r', hr⟩ : ∃ d r', (c :: s').reverse = d :: r' := by
    cases h : (c :: s').reverse with
    | nil => exact absurd h (by simp)
    | cons d r' => exact ⟨d, r', rfl⟩
  have hd : stripSet d = false := by
    apply hlast
    rw [← List.head?_reverse, hr]
    rfl
  rw [hr, dropWhile_cons_not _ _ hd, ← hr, List.reverse_reverse]

/-- When the backslash–single-quote pair never occurs, the unescaping step is
the identity. -/
theorem removeEscQuote_of_no_pair (s : List Char) (h : hasEscPair s = false) :
    removeEscQuote s = s := by
  induction s with
  | nil => rfl
  | cons a t ih =>
    cases t with
    | nil => rfl
    | cons b rest =>
      simp only [hasEscPair, Bool.or_eq_false_iff] at h
      rw [removeEscQuote, if_neg (by simp [h.1])]
      have := ih h.2
      rw [this]

/-- A non-empty chunk never decodes to the empty string: every decoding step
emits at least one character (possibly U+FFFD). -/
theorem utf8DecodeReplace_ne_nil (bs : List Nat) (h : bs ≠ []) :
    utf8DecodeReplace bs ≠ [] := by
  cases bs with
  | nil => exact absurd rfl h
  | cons b rest => simp [utf8DecodeReplace, utf8Go]

/-! ## The claims -/

/-- C1: the claim says every transaction terminates with exactly one Reply
for every socket behaviour, *including an empty received chunk*. The code
violates this: when the peer closes the connection, `recv` returns the empty
chunk `b''` forever, and the `while True:` loop of lines 62–91 never reaches
its `break` (which sits inside `if chunk:`). This theorem shows the call is
still running — no Reply produced, no exception raised — after every finite
number `n` of `recv` calls on a closed peer, i.e. `send_command` busy-loops
forever instead of returning an `error` Reply. -/
theorem claim_C1_empty_chunk_diverges (n : Nat) (cmd : String)
    (params : Option (List (String × Json))) (s : Nat) (cl : List Bool) :
    send_command cmd params (some s) cl [⟨none, List.replicate n (.chunk [])⟩] =
      .exhausted [wireBytes cmd params] ⟨0, 1, n⟩ := by
  simp [send_command, sendCommandGo, connPhase, recvLoop_replicate_empty]

/-- C2 counterexample: a transaction whose first attempt and retry attempt
both fail with a communication fault is claimed to perform at most two
connection attempts and at most two send/receive cycles. On the trace where
`sendall` always raises and the first two reconnects succeed, the single
call performs three connect attempts and three send cycles before the third
reconnect fails — the recursion of line 100 carries no depth bound. -/
theorem claim_C2_cex :
    send_command "get_actors" none (some 0) [true, true, false]
      [⟨some "boom", []⟩, ⟨some "boom", []⟩, ⟨some "boom", []⟩] =
      .reply (commErrorReply "boom") none [] ⟨3, 3, 0⟩ ∧ ¬(3 ≤ 2) :=
  ⟨rfl, by decide⟩

/-- C2 amended: after a communication fault, `send_command` invalidates the
connection and retries the whole transaction; the retries are bounded only by
reconnect failure, not by a count. In particular, whenever the reconnect
after a faulting attempt fails, exactly one communication-error Reply is
returned immediately: a send-side fault yields it after one connect attempt
and one send cycle, a receive-side fault after one connect attempt, one send
and one receive. -/
theorem claim_C2_amended (cmd : String) (params : Option (List (String × Json)))
    (s : Nat) (cl : List Bool) (e : String) (rv : List RecvEvent)
    (evs : List RecvEvent) (restAtt : List AttemptBhv) :
    send_command cmd params (some s) (false :: cl) (⟨some e, rv⟩ :: restAtt) =
      .reply (commErrorReply e) none [] ⟨1, 1, 0⟩
    ∧ send_command cmd params (some s) (false :: cl) (⟨none, .fault e :: evs⟩ :: restAtt) =
        .reply (commErrorReply e) none [wireBytes cmd params] ⟨1, 1, 1⟩ := by
  constructor
  · simp [send_command, sendCommandGo, connPhase]
  · simp [send_command, sendCommandGo, connPhase, recvLoop]

/-- C3: the claim says exactly one bounded read is performed per attempt for
*every* content of the first chunk, including an empty one. The code violates
this: on an empty first chunk the loop polls `recv` again. On the trace where
the first `recv` returns `b''` and the second returns `{}` the model counts
two `recv` calls in a single attempt. -/
theorem claim_C3_second_read (cmd : String) (params : Option (List (String × Json)))
    (s : Nat) (cl : List Bool) :
    send_command cmd params (some s) cl [⟨none, [.chunk [], .chunk (codesOf "\x7b\x7d")]⟩] =
      .reply (.obj []) (some s) [wireBytes cmd params] ⟨0, 1, 2⟩ := by
  have hd : decodeChunk (codesOf "\x7b\x7d") = .obj [] := rfl
  have hne : (codesOf "\x7b\x7d").isEmpty = false := rfl
  simp [send_command, sendCommandGo, connPhase, recvLoop, hne, hd]

/-- C6: a transaction begun with no connection held whose connect attempt
fails returns the not-connected `error` Reply immediately: one connect
attempt, no send, no receive, no retry, and no exception — and the Reply's
message is exactly `"Not connected to Unreal Engine"`. -/
theorem claim_C6_not_connected (cmd : String) (params : Option (List (String × Json)))
    (cl : List Bool) (attempts : List AttemptBhv) :
    send_command cmd params none (false :: cl) attempts =
      .reply notConnectedReply none [] ⟨1, 0, 0⟩
    ∧ messageOf notConnectedReply = some (codesOf "Not connected to Unreal Engine")
    ∧ statusOf notConnectedReply = some (codesOf "error") := by
  refine ⟨?_, rfl, rfl⟩
  simp [send_command, sendCommandGo, connPhase]

/-- C4 counterexample: the claim's own byte sequence — the characters
`"{\"status\": \"success\", \"result\": \"ok\"}"` — does *not* decode to the
mapping `{status: success, result: ok}`. Stripping removes only the outer
quotes; the inner backslash–double-quote sequences are untouched (the
unescape step removes only `\'`), so `json.loads` fails and the decoder
yields a synthesized `error` Reply instead of the mapping. -/
theorem claim_C4_cex :
    decodeChunk (codesOf "\"\x7b\\\"status\\\": \\\"success\\\", \\\"result\\\": \\\"ok\\\"\x7d\"") =
      jsonErrReply (replacedOf
        (codesOf "\"\x7b\\\"status\\\": \\\"success\\\", \\\"result\\\": \\\"ok\\\"\x7d\""))
    ∧ statusOf (decodeChunk
        (codesOf "\"\x7b\\\"status\\\": \\\"success\\\", \\\"result\\\": \\\"ok\\\"\x7d\"")) =
        some (codesOf "error")
    ∧ decodeChunk (codesOf "\"\x7b\\\"status\\\": \\\"success\\\", \\\"result\\\": \\\"ok\\\"\x7d\"") ≠
        .obj [(codesOf "status", jstr "success"), (codesOf "result", jstr "ok")] := by
  refine ⟨rfl, rfl, fun h => ?_⟩
  have h1 := congrArg statusOf h
  have h2 : statusOf (decodeChunk
      (codesOf "\"\x7b\\\"status\\\": \\\"success\\\", \\\"result\\\": \\\"ok\\\"\x7d\"")) =
      some (codesOf "error") := rfl
  rw [h2] at h1
  have h3 : statusOf (.obj [(codesOf "status", jstr "success"),
      (codesOf "result", jstr "ok")]) = some (codesOf "success") := rfl
  rw [h3] at h1
  exact absurd h1 (by decide)

/-- C4 amended: the decoding pipeline recovers the inner structured value
exactly whenever the received text is a valid JSON text wrapped only in
redundant strippable characters (`'`, `"`, newline, carriage return) and the
inner text neither begins/ends with a strippable character nor contains the
two-character sequence `\'` anywhere (the unescape step would corrupt it).
The claim's own example — inner double quotes escaped with backslashes — is
outside this set and fails (see the counterexample). -/
theorem claim_C4_amended (bs : List Nat) (w1 s w2 : List Char) (j : Json)
    (hdec : decodedOf bs = w1 ++ s ++ w2)
    (hw1 : w1.all stripSet) (hw2 : w2.all stripSet) (hs : s ≠ [])
    (hhead : ∀ c, s.head? = some c → stripSet c = false)
    (hlast : ∀ c, s.getLast? = some c → stripSet c = false)
    (hnp : hasEscPair s = false)
    (hok : jsonLoads s = .ok j) :
    decodeChunk bs = j := by
  have hstr : strippedOf bs = s := by
    rw [strippedOf, hdec]
    exact pyStrip_wrapped w1 s w2 hw1 hw2 hs hhead hlast
  have hrep : replacedOf bs = s := by
    rw [replacedOf, hstr]
    exact removeEscQuote_of_no_pair s hnp
  rw [decodeChunk, hrep, hok]

/-- C4 witness: the success object wrapped in one pair of redundant double
quotes (no inner escaping) decodes to exactly the mapping
`{status: success, result: ok}`. -/
theorem claim_C4_witness :
    decodeChunk (codesOf "\"\x7b\"status\": \"success\", \"result\": \"ok\"\x7d\"") =
      .obj [(codesOf "status", jstr "success"), (codesOf "result", jstr "ok")] := by
  refine claim_C4_amended _ ['"'] "\x7b\"status\": \"success\", \"result\": \"ok\"\x7d".toList
    ['"'] _ rfl rfl rfl (by simp) ?_ ?_ rfl rfl
  · intro c hc
    have : c = '{' := by
      have h0 : ("\x7b\"status\": \"success\", \"result\": \"ok\"\x7d".toList).head? =
          some '{' := rfl
      rw [h0] at hc
      exact (Option.some.inj hc).symm
    rw [this]
    rfl
  · intro c hc
    have : c = '}' := by
      have h0 : ("\x7b\"status\": \"success\", \"result\": \"ok\"\x7d".toList).getLast? =
          some '}' := rfl
      rw [h0] at hc
      exact (Option.some.inj hc).symm
    rw [this]
    rfl

/-- C5 counterexample: a well-formed success payload whose wire text contains
the two-character sequence `\'` (here the valid JSON text
`{"status": "success", "result": "a\\'b"}`, whose `result` is the four
code points `a \ ' b`) is *modified* by the decoder: the unescape step
deletes the `\'`, turning the value into `a` + backspace. The reply still
has status `success` but no longer carries the exact payload the remote
sent. -/
theorem claim_C5_cex :
    send_command "q" none (some 0) []
      [⟨none, [.chunk (codesOf "\x7b\"status\": \"success\", \"result\": \"a\\\\'b\"\x7d")]⟩] =
      .reply (.obj [(codesOf "status", jstr "success"), (codesOf "result", .str [97, 8])])
        (some 0) [wireBytes "q" none] ⟨0, 1, 1⟩
    ∧ jsonLoads (decodedOf (codesOf "\x7b\"status\": \"success\", \"result\": \"a\\\\'b\"\x7d")) =
        .ok (.obj [(codesOf "status", jstr "success"), (codesOf "result", .str [97, 92, 39, 98])])
    ∧ ([97, 8] : List Nat) ≠ [97, 92, 39, 98] :=
  ⟨rfl, rfl, by decide⟩

/-- C5 amended: when a connection is held and the remote returns a single
well-formed payload in one non-empty chunk *whose text the normalization
steps leave unchanged*, `send_command` returns exactly the decoded payload,
with the connection untouched, after one send and one receive. Payloads
whose text contains `\'` or strippable boundary characters are altered by
normalization (see the counterexample). -/
theorem claim_C5_exact_payload (cmd : String) (params : Option (List (String × Json)))
    (s : Nat) (cl : List Bool) (bs : List Nat) (j : Json)
    (hne : bs.isEmpty = false)
    (hid : replacedOf bs = decodedOf bs)
    (hok : jsonLoads (decodedOf bs) = .ok j) :
    send_command cmd params (some s) cl [⟨none, [.chunk bs]⟩] =
      .reply j (some s) [wireBytes cmd params] ⟨0, 1, 1⟩ := by
  have hd : decodeChunk bs = j := by
    rw [decodeChunk, hid, hok]
  simp [send_command, sendCommandGo, connPhase, recvLoop, hne, hd]

/-- C5 witness: the claim's scenario — remote replies
`{"status":"success","result":[]}` — yields the success Reply carrying the
empty sequence, with the held connection unchanged. -/
theorem claim_C5_witness :
    send_command "get_actors" none (some 0) []
      [⟨none, [.chunk (codesOf "\x7b\"status\":\"success\",\"result\":[]\x7d")]⟩] =
      .reply (.obj [(codesOf "status", jstr "success"), (codesOf "result", .arr [])])
        (some 0) [wireBytes "get_actors" none] ⟨0, 1, 1⟩ :=
  claim_C5_exact_payload "get_actors" none 0 []
    (codesOf "\x7b\"status\":\"success\",\"result\":[]\x7d")
    (.obj [(codesOf "status", jstr "success"), (codesOf "result", .arr [])])
    rfl rfl rfl

/-- C7 counterexample: in the truncated-bytes scenario the claim says the
`error` Reply's message *equals* the raw decoded text. The code prefixes the
diagnostic with `"Json error: "` (line 89), so for the truncated chunk
`{"status` the message is `Json error: {"status`, not the decoded text
itself. -/
theorem claim_C7_cex :
    messageOf (decodeChunk (codesOf "\x7b\"status")) =
      some (codesOf "Json error: \x7b\"status")
    ∧ messageOf (decodeChunk (codesOf "\x7b\"status")) ≠ some (codesOf "\x7b\"status") :=
  ⟨rfl, by decide⟩

/-- C7 amended: when a non-empty chunk's normalized text fails to parse, the
synthesized Reply's message is `"Json error: "` followed by the best
available diagnostic, chosen in priority order: the post-unescape text if
non-empty, else the post-strip text, else the raw decoded text. (The fourth
fallback of line 82 — the parser's own error description — is unreachable
for a non-empty chunk, since decoding with replacement never yields an empty
text.) In the truncated-bytes scenario all three candidates coincide, so the
diagnostic part equals the raw decoded text. -/
theorem claim_C7_message_priority (bs : List Nat)
    (hne : bs ≠ [])
    (hfail : isParseError bs = true) :
    decodeChunk bs =
      jsonErrReply
        (if replacedOf bs ≠ [] then replacedOf bs
         else if strippedOf bs ≠ [] then strippedOf bs
         else decodedOf bs) := by
  have hdec : decodedOf bs ≠ [] := utf8DecodeReplace_ne_nil bs hne
  rw [isParseError] at hfail
  cases h : jsonLoads (replacedOf bs) with
  | ok v => rw [h] at hfail; simp at hfail
  | error je =>
    simp only [decodeChunk, h]
    by_cases h1 : replacedOf bs ≠ []
    · simp [h1]
    · by_cases h2 : strippedOf bs ≠ []
      · simp [h1, h2]
      · simp [h1, h2, hdec]

/-- C7 witness: the amended priority rule applied to the truncated chunk
`{"status`, whose strip and unescape steps are the identity, so the
diagnostic is the raw decoded text (with the `Json error: ` prefix). -/
theorem claim_C7_witness :
    decodeChunk (codesOf "\x7b\"status") =
      jsonErrReply
        (if replacedOf (codesOf "\x7b\"status") ≠ [] then replacedOf (codesOf "\x7b\"status")
         else if strippedOf (codesOf "\x7b\"status") ≠ [] then strippedOf (codesOf "\x7b\"status")
         else decodedOf (codesOf "\x7b\"status"))
    ∧ replacedOf (codesOf "\x7b\"status") = decodedOf (codesOf "\x7b\"status") :=
  ⟨claim_C7_message_priority (codesOf "\x7b\"status") (by decide) rfl, rfl⟩

/-- C8 counterexample: the claim says every Reply of a transaction is a
mapping with a `status` field of `success` or `error`, even when the remote
sends a non-mapping payload. When the remote sends the bytes `42`, the
decoded Reply is the bare number `42` — returned as-is by line 73/94 — which
carries no `status` field at all. -/
theorem claim_C8_cex :
    send_command "x" none (some 0) [] [⟨none, [.chunk (codesOf "42")]⟩] =
      .reply (.num 42) (some 0) [wireBytes "x" none] ⟨0, 1, 1⟩
    ∧ statusOf (.num 42) = none :=
  ⟨rfl, rfl⟩

/-- C8 amended: only the *locally synthesized* Replies are guaranteed
discriminated mappings with status `error` (not-connected, communication
error, parse failure); a Reply decoded from a successful parse is the parsed
payload returned as-is, which carries a `status` field only if the remote
included one. -/
theorem claim_C8_status_discipline (bs : List Nat) (e : String) :
    (match jsonLoads (replacedOf bs) with
     | .ok v => decodeChunk bs = v
     | .error _ => statusOf (decodeChunk bs) = some (codesOf "error"))
    ∧ statusOf notConnectedReply = some (codesOf "error")
    ∧ statusOf (commErrorReply e) = some (codesOf "error") := by
  refine ⟨?_, rfl, rfl⟩
  cases h : jsonLoads (replacedOf bs) with
  | ok v => simp [decodeChunk, h]
  | error je => simp [decodeChunk, h, jsonErrReply, statusOf, lookupKey, jstr]

/-- C9: a transaction whose received bytes fail to parse, with no
socket-level fault, returns the diagnostic `error` Reply while leaving the
connection slot untouched: the final slot still holds the same handle `s`,
zero connect attempts are made, and no retry occurs (one send, one
receive). -/
theorem claim_C9_conn_preserved (cmd : String) (params : Option (List (String × Json)))
    (s : Nat) (cl : List Bool) (bs : List Nat)
    (hne : bs.isEmpty = false)
    (hperr : isParseError bs = true) :
    send_command cmd params (some s) cl [⟨none, [.chunk bs]⟩] =
      .reply (decodeChunk bs) (some s) [wireBytes cmd params] ⟨0, 1, 1⟩
    ∧ statusOf (decodeChunk bs) = some (codesOf "error") := by
  constructor
  · simp [send_command, sendCommandGo, connPhase, recvLoop, hne]
  · rw [isParseError] at hperr
    cases h : jsonLoads (replacedOf bs) with
    | ok v => rw [h] at hperr; simp at hperr
    | error je => simp [decodeChunk, h, jsonErrReply, statusOf, lookupKey, jstr]

/-- C9 witness: the truncated chunk `{"a": ` fails to parse; the transaction
returns the diagnostic `error` Reply with the held connection `0` unchanged
and no reconnect. -/
theorem claim_C9_witness :
    send_command "get_actors" none (some 0) []
      [⟨none, [.chunk (codesOf "\x7b\"a\": ")]⟩] =
      .reply (decodeChunk (codesOf "\x7b\"a\": ")) (some 0)
        [wireBytes "get_actors" none] ⟨0, 1, 1⟩
    ∧ statusOf (decodeChunk (codesOf "\x7b\"a\": ")) = some (codesOf "error") :=
  claim_C9_conn_preserved "get_actors" none 0 [] (codesOf "\x7b\"a\": ") rfl rfl

/-- C10: omitting the parameter mapping (`params=None`) and passing an empty
mapping produce the same wire bytes — the `params is None` default of lines
48–49 — and the request written to the socket in one complete send is the
JSON encoding of `{"command": <name>, "params": {}}`; concretely, for
`get_actors` the bytes are exactly `{"command": "get_actors", "params": {}}`. -/
theorem claim_C10_params_default (cmd : String) (s : Nat) (cl : List Bool) :
    wireBytes cmd none = wireBytes cmd (some [])
    ∧ send_command cmd none (some s) cl [⟨none, [.chunk (codesOf "\x7b\x7d")]⟩] =
        .reply (.obj []) (some s) [wireBytes cmd none] ⟨0, 1, 1⟩
    ∧ send_command cmd (some []) (some s) cl [⟨none, [.chunk (codesOf "\x7b\x7d")]⟩] =
        .reply (.obj []) (some s) [wireBytes cmd none] ⟨0, 1, 1⟩
    ∧ wireBytes "get_actors" none = codesOf "\x7b\"command\": \"get_actors\", \"params\": \x7b\x7d\x7d" := by
  have hd : decodeChunk (codesOf "\x7b\x7d") = .obj [] := rfl
  have hne : (codesOf "\x7b\x7d").isEmpty = false := rfl
  refine ⟨rfl, ?_, ?_, ?_⟩
  · simp [send_command, sendCommandGo, connPhase, recvLoop, hne, hd]
  · simp [send_command, sendCommandGo, connPhase, recvLoop, hne, hd]
    rfl
  · simp [wireBytes, messageJson, dumpJson, dumpStringCps, joinSep, escCp, codesOf,
      utf8Encode, utf8EncodeChar, codes, hex4, hexDig]

end UnrealMCP
